import Mathlib

/-!
# go-errors: classified error values and their chain traversals

A shallow embedding of `errors.go`.  Go's `error` interface is rendered as the
inductive type `GoError`, whose constructors are the dynamic types an `error`
can hold here: the nil interface, the error types of `github.com/pkg/errors`
that the library builds on (`fundamental`, `withMessage`, `withStack`), plain
errors of the standard library, a foreign layer that names itself as its own
cause, and the library's own `customError`.

Two ambient primitives of the source are made explicit:

* the call stack captured by `callers()` in `github.com/pkg/errors` is an
  argument `callers` of every operation that captures one;
* the way `fmt` prints operands is an argument (a `Printer`): `pr` for
  `fmt.Sprintf` and `pe` for `fmt.Errorf`; what `fmt` does with a format that
  has no operands is modelled in full (`doPrintf`).

A method call on a nil interface, a failed type assertion and a slice out of
range panic in Go; such a call returns `none` here.
-/

namespace GoErrors

/-! ## Data model -/

/-- ErrorCode holds the type of errors (`type ErrorCode string`). -/
abbrev ErrorCode := String

def InternalError : ErrorCode := "Internal Error"
def NotFound : ErrorCode := "Not Found"
def InvalidArgument : ErrorCode := "Invalid Argument"
def Unauthenticated : ErrorCode := "Unauthenticated"
def PermissionDenied : ErrorCode := "Permission Denied"
def Unknown : ErrorCode := "Unknown"

/-- One program counter of a captured call stack. -/
abbrev Frame := Nat

/-- A captured call stack, innermost frame first (`errors.StackTrace`). -/
abbrev Trace := List Frame

/-- The values an `error` interface can hold. -/
inductive GoError where
  /-- the nil interface value -/
  | nil
  /-- an error of the standard library (`io.EOF`, the result of `fmt.Errorf`):
  a message, no `Cause` method, no `StackTrace` method -/
  | plain (msg : String)
  /-- the `*fundamental` of pkg/errors, made by `errors.New` -/
  | fundamental (msg : String) (stack : Trace)
  /-- the `*withMessage` of pkg/errors -/
  | withMessage (cause : GoError) (msg : String)
  /-- the `*withStack` of pkg/errors -/
  | withStack (err : GoError) (stack : Trace)
  /-- a foreign layer whose `Cause` method returns the layer itself -/
  | selfCauser (msg : String)
  /-- the library's `customError` struct -/
  | customError (code : ErrorCode) (originalError : GoError) (displayMessage : String)
  deriving DecidableEq, Repr

/-! ## `fmt.Sprintf` -/

/-- The part of `fmt.Sprintf` that prints operands: the text produced for a
format and a non-empty operand list.  The library only passes operands on. -/
abbrev Printer (α : Type) := String → List α → String

/-- The bound of `tooLarge` in `fmt`: widths beyond a million are refused. -/
def tooLarge (x : Nat) : Bool := decide (x > 1000000)

/-- The loop of `parsenum` of `fmt`: reads decimal digits from the window `s`;
returns the number, whether a digit was read, and what is left of the window
(nothing after an overflow, where Go sets the position to the window's end). -/
def parsenumLoop : List Char → Nat → Bool → Nat × Bool × List Char
  | [], num, isnum => (num, isnum, [])
  | c :: cs, num, isnum =>
    if '0' ≤ c ∧ c ≤ '9' then
      if tooLarge num then (0, false, [])
      else parsenumLoop cs (num * 10 + (c.toNat - '0'.toNat)) true
    else (num, isnum, c :: cs)

/-- The `parsenum` of `fmt` on the window `s`. -/
def parsenum (s : List Char) : Nat × Bool × List Char := parsenumLoop s 0 false

/-- The `parseArgNumber` of `fmt` on a text that starts with `[`: the width
to skip and whether a well-formed index `[n]` was read. -/
def parseArgNumber (s : List Char) : Nat × Bool :=
  if s.length < 3 then (1, false)
  else
    match (s.drop 1).indexOf? ']' with
    | none => (1, false)
    | some k =>
      let i := k + 1
      let r := parsenum ((s.drop 1).take k)
      if r.2.1 = false ∨ r.2.2 ≠ [] then (i + 1, false) else (i + 1, true)

/-- The state of one directive while `doPrintf` reads it: the text written so
far for it, the rest of the format, `afterIndex` and `goodArgNum`. -/
structure Directive where
  out : List Char
  rest : List Char
  afterIndex : Bool
  goodArgNum : Bool

/-- The `argNumber` of `fmt` when there is no operand: an index `[n]` is
skipped and can never be in range. -/
def argNumber (d : Directive) : Directive :=
  match d.rest with
  | '[' :: _ =>
    let r := parseArgNumber d.rest
    { d with rest := d.rest.drop r.1, afterIndex := r.2, goodArgNum := false }
  | _ => { d with afterIndex := false }

/-- Is `c` one of the flags `#0+- ` of a directive? -/
def isFlag (c : Char) : Bool := c = '#' || c = '0' || c = '+' || c = '-' || c = ' '

/-- The width part of a directive, with no operand for `*`. -/
def widthPart (d : Directive) : Directive :=
  match d.rest with
  | '*' :: cs => { d with out := d.out ++ "%!(BADWIDTH)".data, rest := cs, afterIndex := false }
  | _ =>
    let r := parsenum d.rest
    { d with rest := r.2.2, goodArgNum := if d.afterIndex && r.2.1 then false else d.goodArgNum }

/-- The precision part of a directive, with no operand for `*`. -/
def precisionPart (d : Directive) : Directive :=
  match d.rest with
  | '.' :: cs =>
    let d1 := argNumber
      { d with rest := cs, goodArgNum := if d.afterIndex then false else d.goodArgNum }
    match d1.rest with
    | '*' :: cs1 => { d1 with out := d1.out ++ "%!(BADPREC)".data, rest := cs1, afterIndex := false }
    | _ => { d1 with rest := (parsenum d1.rest).2.2 }
  | _ => d

/-- One directive of `doPrintf` with no operand, read from the text after its
`%`: the text written for it, and the rest of the format (`none` when the
format ended before a verb). -/
def directive (s : List Char) : List Char × Option (List Char) :=
  let d0 : Directive := { out := [], rest := s.dropWhile isFlag, afterIndex := false, goodArgNum := true }
  let d1 := argNumber d0
  let d2 := widthPart d1
  let d3 := precisionPart d2
  let d4 := if d3.afterIndex then d3 else argNumber d3
  match d4.rest with
  | [] => (d4.out ++ "%!(NOVERB)".data, none)
  | verb :: cs =>
    if verb = '%' then (d4.out ++ ['%'], some cs)
    else if d4.goodArgNum = false then (d4.out ++ "%!".data ++ [verb] ++ "(BADINDEX)".data, some cs)
    else (d4.out ++ "%!".data ++ [verb] ++ "(MISSING)".data, some cs)

/-- The `doPrintf` of `fmt` for a format with no operands: text is copied up
to each `%`, and each directive is replaced by its error text (or by `%` for
`%%`).  `fuel` bounds the number of steps; the length of the format plus one
is enough. -/
def doPrintfLoop : Nat → List Char → List Char
  | 0, _ => []
  | _ + 1, [] => []
  | fuel + 1, c :: cs =>
    if c = '%' then
      match directive cs with
      | (out, none) => out
      | (out, some rest) => out ++ doPrintfLoop fuel rest
    else c :: doPrintfLoop fuel cs

/-- The text `fmt.Sprintf(format)` (no operands). -/
def doPrintf (format : String) : String :=
  String.mk (doPrintfLoop (format.length + 1) format.data)

/-- The `fmt.Sprintf(format, args...)` of the source. -/
def Sprintf {α : Type} (pr : Printer α) (format : String) (args : List α) : String :=
  match args with
  | [] => doPrintf format
  | _ => pr format args

/-! ## `github.com/pkg/errors` and the standard library -/

/-- The `errors.New` of pkg/errors: a `*fundamental` with the captured stack. -/
def pkgNew (callers : Trace) (msg : String) : GoError :=
  .fundamental msg callers

/-- The `errors.Wrapf` of pkg/errors: nil for a nil error, else a `*withStack`
around a `*withMessage` around `err`. -/
def pkgWrapf {α : Type} (pr : Printer α) (callers : Trace) (err : GoError)
    (format : String) (args : List α) : GoError :=
  if err = .nil then .nil
  else .withStack (.withMessage err (Sprintf pr format args)) callers

/-- The `fmt.Errorf` of the standard library: a plain error (it has neither a
`Cause` nor a `StackTrace` method) whose text is formatted as by `Sprintf`,
with `pe` the way `Errorf` prints operands (it accepts the verb `%w`, which
`Sprintf` does not, so `pe` need not be the printer of `Sprintf`). -/
def fmtErrorf {α : Type} (pe : Printer α) (format : String) (args : List α) : GoError :=
  .plain (Sprintf pe format args)

/-- The `Cause` method of an error that implements `causer`; `none` when the
error does not have the method. -/
def causerCause : GoError → Option GoError
  | .withMessage cause _ => some cause
  | .withStack err _ => some err
  | .selfCauser msg => some (.selfCauser msg)
  | _ => none

/-- The `errors.Cause` of pkg/errors: follows `Cause` methods until an error
without one, or nil, is reached.  One unit of `fuel` per turn of the loop;
`none` when the fuel runs out. -/
def pkgCause : Nat → GoError → Option GoError
  | 0, _ => none
  | fuel + 1, err =>
    if err = .nil then some .nil
    else
      match causerCause err with
      | none => some err
      | some cause => pkgCause fuel cause

/-- The `StackTrace` method of an error that implements `stackTracer`; `none`
when the error does not have the method. -/
def stackTracer : GoError → Option Trace
  | .fundamental _ stack => some stack
  | .withStack _ stack => some stack
  | _ => none

/-- The `Error` method.  `none` where Go panics: on the nil interface. -/
def Error : GoError → Option String
  | .nil => none
  | .plain msg => some msg
  | .fundamental msg _ => some msg
  | .withMessage cause msg => (Error cause).map (fun s => msg ++ ": " ++ s)
  | .withStack err _ => Error err
  | .selfCauser msg => some msg
  | .customError _ originalError _ => Error originalError

/-! ## The library -/

/-- New creates a new customError -/
def ErrorCode.New (code : ErrorCode) (callers : Trace) (msg : String) : GoError :=
  .customError code (pkgNew callers msg) ""

/-- Newf creates a new customError with formatted message -/
def ErrorCode.Newf {α : Type} (pe : Printer α) (code : ErrorCode) (msg : String)
    (args : List α) : GoError :=
  .customError code (fmtErrorf pe msg args) ""

/-- Wrapf creates a new wrapped error with formatted message -/
def ErrorCode.Wrapf {α : Type} (pr : Printer α) (code : ErrorCode) (callers : Trace)
    (err : GoError) (msg : String) (args : List α) : GoError :=
  .customError code (pkgWrapf pr callers err msg args) ""

/-- Wrap creates a new wrapped error -/
def ErrorCode.Wrap {α : Type} (pr : Printer α) (code : ErrorCode) (callers : Trace)
    (err : GoError) (msg : String) : GoError :=
  ErrorCode.Wrapf pr code callers err msg []

/-- New creates a no type error -/
def New (callers : Trace) (msg : String) : GoError :=
  .customError InternalError (pkgNew callers msg) ""

/-- Newf creates an InternalError error with formatted message -/
def Newf {α : Type} (pr : Printer α) (callers : Trace) (msg : String)
    (args : List α) : GoError :=
  .customError InternalError (pkgNew callers (Sprintf pr msg args)) ""

/-- Wrapf an error with format string -/
def Wrapf {α : Type} (pr : Printer α) (callers : Trace) (err : GoError)
    (msg : String) (args : List α) : GoError :=
  let wrappedError := pkgWrapf pr callers err msg args
  match err with
  | .customError code _ _ => .customError code wrappedError ""
  | _ => .customError InternalError wrappedError ""

/-- Wrap an error with a string -/
def Wrap {α : Type} (pr : Printer α) (callers : Trace) (err : GoError)
    (msg : String) : GoError :=
  Wrapf pr callers err msg []

/-- WithDisplayMessage returns a error containing a display message -/
def WithDisplayMessage (err : GoError) (msg : String) : GoError :=
  match err with
  | .customError code _ _ => .customError code err msg
  | _ => .customError InternalError err msg

/-- Code retrives the error code from an error, defaults to InternalError -/
def Code : GoError → ErrorCode
  | .customError code _ _ => code
  | _ => InternalError

/-- Cause retrives the original error.  The fuel is handed on to `pkgCause`
and to the recursive call; `none` when it runs out. -/
def Cause : Nat → GoError → Option GoError
  | 0, _ => none
  | fuel + 1, .customError _ originalError _ =>
    match pkgCause fuel originalError with
    | none => none
    | some root => Cause fuel root
  | fuel + 1, err => pkgCause fuel err

/-- DisplayMessage retrives the display message -/
def DisplayMessage : GoError → String
  | .customError code _ displayMessage =>
    if displayMessage ≠ "" then displayMessage else code
  | _ => InternalError

/-- StackTrace retrives the stack trace of an error.  `none` where Go panics:
the type assertion to `stackTracer` fails, or the trace has no first frame to
drop. -/
def StackTrace : GoError → Option Trace
  | .customError _ originalError _ => StackTrace originalError
  | err =>
    match stackTracer err with
    | none => none
    | some [] => none
    | some (_ :: frames) => some frames

/-! ## Sequences of wrapping operations -/

/-- Does the type assertion `err.(customError)` succeed? -/
def isCustomError : GoError → Bool
  | .customError _ _ _ => true
  | _ => false

/-- Is `err` a root failure: a non-nil foreign error that is not a wrapping
layer (it has no `Cause` method)? -/
def isRoot : GoError → Bool
  | .plain _ => true
  | .fundamental _ _ => true
  | _ => false

/-- One wrapping call of the library, with every argument but the error. -/
inductive WrapOp (α : Type) where
  /-- the free `Wrap(err, msg)` -/
  | wrap (callers : Trace) (msg : String)
  /-- the free `Wrapf(err, msg, args...)` -/
  | wrapf (callers : Trace) (msg : String) (args : List α)
  /-- the call `WithDisplayMessage(err, msg)` -/
  | withDisplayMessage (msg : String)
  /-- the category-bound `code.Wrap(err, msg)` -/
  | codeWrap (code : ErrorCode) (callers : Trace) (msg : String)
  /-- the category-bound `code.Wrapf(err, msg, args...)` -/
  | codeWrapf (code : ErrorCode) (callers : Trace) (msg : String) (args : List α)

/-- Is the call one of the free `Wrap`, `Wrapf`, `WithDisplayMessage`? -/
def WrapOp.isFree {α : Type} : WrapOp α → Bool
  | .wrap _ _ => true
  | .wrapf _ _ _ => true
  | .withDisplayMessage _ => true
  | _ => false

/-- Is the call one of the free `Wrap`, `Wrapf`? -/
def WrapOp.isFreeWrap {α : Type} : WrapOp α → Bool
  | .wrap _ _ => true
  | .wrapf _ _ _ => true
  | _ => false

/-- The result of the call `op` on `err`. -/
def WrapOp.apply {α : Type} (pr : Printer α) (op : WrapOp α) (err : GoError) : GoError :=
  match op with
  | .wrap callers msg => Wrap pr callers err msg
  | .wrapf callers msg args => Wrapf pr callers err msg args
  | .withDisplayMessage msg => WithDisplayMessage err msg
  | .codeWrap code callers msg => ErrorCode.Wrap pr code callers err msg
  | .codeWrapf code callers msg args => ErrorCode.Wrapf pr code callers err msg args

/-- The calls `ops` applied to `err` one after the other, the head of the
list first (so the last call of the list makes the outermost layer). -/
def applyOps {α : Type} (pr : Printer α) (ops : List (WrapOp α)) (err : GoError) : GoError :=
  ops.foldl (fun e op => op.apply pr e) err

/-- A printer for formats whose operands are texts: it ignores the format and
concatenates the operands.  It only serves to run the definitions on concrete
inputs; no statement below depends on what a printer prints. -/
def concatPrinter : Printer String := fun _ args => String.join args

/-! ## Chains -/

/-- The `originalError` field of a library value; `none` for a value that is
not a `customError`. -/
def originalErrorOf : GoError → Option GoError
  | .customError _ originalError _ => some originalError
  | _ => none

/-- The first error that is not a library value, reached from `err` by taking
`originalError` as long as the value is a `customError`. -/
def firstForeign : GoError → GoError
  | .customError _ originalError _ => firstForeign originalError
  | err => err

/-- Is the cause chain of `err` finite: does no layer of it name itself as its
own cause? -/
def finiteChain : GoError → Bool
  | .withMessage cause _ => finiteChain cause
  | .withStack err _ => finiteChain err
  | .customError _ originalError _ => finiteChain originalError
  | .selfCauser _ => false
  | _ => true

/-- The depth of the chain of `err`: the number of layers (library values and
the wrapping layers of pkg/errors) above its last element. -/
def depth : GoError → Nat
  | .withMessage cause _ => depth cause + 1
  | .withStack err _ => depth err + 1
  | .customError _ originalError _ => depth originalError + 1
  | _ => 0

/-- The loop of `pkgCause`, which also counts its unwrapping steps: the calls
of a `Cause` method. -/
def pkgCauseSteps : Nat → GoError → Option (GoError × Nat)
  | 0, _ => none
  | fuel + 1, err =>
    if err = .nil then some (.nil, 0)
    else
      match causerCause err with
      | none => some (err, 0)
      | some cause =>
        match pkgCauseSteps fuel cause with
        | none => none
        | some (root, n) => some (root, n + 1)

/-- The recursion of `Cause`, which also counts its unwrapping steps: the
calls of a `Cause` method and the reads of an `originalError` field. -/
def CauseSteps : Nat → GoError → Option (GoError × Nat)
  | 0, _ => none
  | fuel + 1, .customError _ originalError _ =>
    match pkgCauseSteps fuel originalError with
    | none => none
    | some (root, n) =>
      match CauseSteps fuel root with
      | none => none
      | some (last, k) => some (last, n + k + 1)
  | fuel + 1, err => pkgCauseSteps fuel err

/-! ## Basic facts -/

theorem Code_Wrapf {α : Type} (pr : Printer α) (callers : Trace) (err : GoError)
    (msg : String) (args : List α) : Code (Wrapf pr callers err msg args) = Code err := by
  cases err <;> rfl

theorem Code_WithDisplayMessage (err : GoError) (msg : String) :
    Code (WithDisplayMessage err msg) = Code err := by
  cases err <;> rfl

theorem Code_of_not_customError (err : GoError) (h : isCustomError err = false) :
    Code err = InternalError := by
  cases err <;> first | rfl | simp [isCustomError] at h

theorem applyOps_cons {α : Type} (pr : Printer α) (op : WrapOp α) (ops : List (WrapOp α))
    (err : GoError) : applyOps pr (op :: ops) err = applyOps pr ops (op.apply pr err) := rfl

theorem Code_apply_free {α : Type} (pr : Printer α) (op : WrapOp α) (err : GoError)
    (h : op.isFree = true) : Code (op.apply pr err) = Code err := by
  cases op with
  | wrap callers msg => exact Code_Wrapf pr callers err msg []
  | wrapf callers msg args => exact Code_Wrapf pr callers err msg args
  | withDisplayMessage msg => exact Code_WithDisplayMessage err msg
  | codeWrap code callers msg => simp [WrapOp.isFree] at h
  | codeWrapf code callers msg args => simp [WrapOp.isFree] at h

theorem Code_applyOps_free {α : Type} (pr : Printer α) (ops : List (WrapOp α)) :
    ∀ err : GoError, ops.all WrapOp.isFree = true → Code (applyOps pr ops err) = Code err := by
  induction ops with
  | nil => intro err _; rfl
  | cons op ops ih =>
    intro err h
    rw [List.all_cons, Bool.and_eq_true] at h
    rw [applyOps_cons, ih _ h.2, Code_apply_free pr op err h.1]

theorem doPrintfLoop_of_no_percent (s : List Char) (h : '%' ∉ s) :
    ∀ fuel, s.length < fuel → doPrintfLoop fuel s = s := by
  induction s with
  | nil => intro fuel _; cases fuel <;> rfl
  | cons c cs ih =>
    intro fuel hf
    cases fuel with
    | zero => simp at hf
    | succ fuel =>
      have hc : c ≠ '%' := fun hc => h (by simp [hc])
      have hcs : '%' ∉ cs := fun hcs => h (by simp [hcs])
      simp only [List.length_cons, Nat.add_lt_add_iff_right] at hf
      simp [doPrintfLoop, hc, ih hcs fuel hf]

theorem doPrintf_of_no_percent (m : String) (h : '%' ∉ m.data) : doPrintf m = m := by
  unfold doPrintf
  have hlen : m.data.length < m.length + 1 := Nat.lt_succ_self _
  rw [doPrintfLoop_of_no_percent m.data h _ hlen]

theorem pkgWrapf_of_ne_nil {α : Type} (pr : Printer α) (callers : Trace) (err : GoError)
    (msg : String) (args : List α) (h : err ≠ .nil) :
    pkgWrapf pr callers err msg args = .withStack (.withMessage err (Sprintf pr msg args)) callers := by
  simp [pkgWrapf, h]

theorem Wrapf_of_ne_nil {α : Type} (pr : Printer α) (callers : Trace) (err : GoError)
    (msg : String) (args : List α) (h : err ≠ .nil) :
    Wrapf pr callers err msg args =
      .customError (Code err) (.withStack (.withMessage err (Sprintf pr msg args)) callers) "" := by
  cases err <;> first | exact absurd rfl h | simp [Wrapf, pkgWrapf, Code]

theorem WithDisplayMessage_eq (err : GoError) (msg : String) :
    WithDisplayMessage err msg = .customError (Code err) err msg := by
  cases err <;> rfl


theorem pkgCause_stop (fuel : Nat) (x : GoError) (hx : x ≠ .nil) (hc : causerCause x = none) :
    pkgCause (fuel + 1) x = some x := by
  simp [pkgCause, hx, hc]

theorem pkgCause_wrapped (fuel : Nat) (x : GoError) (msg : String) (callers : Trace) :
    pkgCause (fuel + 2) (.withStack (.withMessage x msg) callers) = pkgCause fuel x := by
  simp [pkgCause, causerCause]

theorem Cause_apply {α : Type} (pr : Printer α) (op : WrapOp α) (x e : GoError) (k : Nat)
    (hk : 3 ≤ k) (hx : x ≠ .nil) (hc : causerCause x = none)
    (h : ∀ fuel, k ≤ fuel → Cause fuel x = some e) :
    ∀ fuel, k + 1 ≤ fuel → Cause fuel (op.apply pr x) = some e := by
  intro fuel hf
  obtain ⟨g, rfl⟩ : ∃ g, fuel = g + 3 + 1 := ⟨fuel - 4, by omega⟩
  have hg : Cause (g + 3) x = some e := h _ (by omega)
  have key : ∀ (code : ErrorCode) (msg : String) (callers : Trace) (d : String),
      Cause (g + 3 + 1) (.customError code (.withStack (.withMessage x msg) callers) d)
        = some e := by
    intro code msg callers d
    simp only [Cause]
    rw [pkgCause_wrapped, pkgCause_stop g x hx hc]
    exact hg
  cases op with
  | wrap callers msg => simp only [WrapOp.apply, Wrap]; rw [Wrapf_of_ne_nil _ _ _ _ _ hx]; exact key _ _ _ _
  | wrapf callers msg args => simp only [WrapOp.apply]; rw [Wrapf_of_ne_nil _ _ _ _ _ hx]; exact key _ _ _ _
  | withDisplayMessage msg =>
    simp only [WrapOp.apply]; rw [WithDisplayMessage_eq]
    simp only [Cause]
    rw [pkgCause_stop (g + 2) x hx hc]
    exact hg
  | codeWrap code callers msg =>
    simp only [WrapOp.apply, ErrorCode.Wrap, ErrorCode.Wrapf]; rw [pkgWrapf_of_ne_nil _ _ _ _ _ hx]; exact key _ _ _ _
  | codeWrapf code callers msg args =>
    simp only [WrapOp.apply, ErrorCode.Wrapf]; rw [pkgWrapf_of_ne_nil _ _ _ _ _ hx]; exact key _ _ _ _

theorem apply_stops {α : Type} (pr : Printer α) (op : WrapOp α) (x : GoError) :
    op.apply pr x ≠ .nil ∧ causerCause (op.apply pr x) = none := by
  cases op <;> cases x <;> exact ⟨by simp [WrapOp.apply, Wrap, Wrapf, WithDisplayMessage, ErrorCode.Wrap, ErrorCode.Wrapf], rfl⟩

theorem Cause_applyOps {α : Type} (pr : Printer α) (e : GoError) (ops : List (WrapOp α)) :
    ∀ (x : GoError) (k : Nat), 3 ≤ k → x ≠ .nil → causerCause x = none →
      (∀ fuel, k ≤ fuel → Cause fuel x = some e) →
      ∀ fuel, k + ops.length ≤ fuel → Cause fuel (applyOps pr ops x) = some e := by
  induction ops with
  | nil => intro x k _ _ _ h fuel hf; exact h fuel (by simpa using hf)
  | cons op ops ih =>
    intro x k hk hx hc h fuel hf
    rw [applyOps_cons]
    exact ih (op.apply pr x) (k + 1) (by omega) (apply_stops pr op x).1 (apply_stops pr op x).2
      (Cause_apply pr op x e k hk hx hc h) fuel (by simp only [List.length_cons] at hf; omega)

theorem Cause_root (e : GoError) (h : isRoot e = true) :
    ∀ fuel, 2 ≤ fuel → Cause fuel e = some e := by
  intro fuel hf
  obtain ⟨g, rfl⟩ : ∃ g, fuel = g + 1 + 1 := ⟨fuel - 2, by omega⟩
  cases e <;> first | rfl | simp [isRoot] at h

theorem Error_Wrapf {α : Type} (pr : Printer α) (callers : Trace) (err : GoError)
    (msg : String) (args : List α) :
    Error (Wrapf pr callers err msg args)
      = (Error err).map (fun s => Sprintf pr msg args ++ ": " ++ s) := by
  cases err <;> rfl

theorem Error_codeWrapf {α : Type} (pr : Printer α) (code : ErrorCode) (callers : Trace)
    (err : GoError) (msg : String) (args : List α) :
    Error (ErrorCode.Wrapf pr code callers err msg args)
      = (Error err).map (fun s => Sprintf pr msg args ++ ": " ++ s) := by
  cases err <;> rfl

/-- The description of `Wrap(err, m)` and of `C.Wrap(err, m)` composes as
`m ++ ": " ++ err.Error()` whenever `m` has no `%`. -/
theorem Error_Wrap_of_no_percent {α : Type} (pr : Printer α) (C : ErrorCode)
    (callers : Trace) (err : GoError) (m : String) (h : '%' ∉ m.data) :
    Error (Wrap pr callers err m) = (Error err).map (fun s => m ++ ": " ++ s) ∧
    Error (ErrorCode.Wrap pr C callers err m) = (Error err).map (fun s => m ++ ": " ++ s) := by
  have hm : Sprintf pr m [] = m := doPrintf_of_no_percent m h
  constructor
  · rw [Wrap, Error_Wrapf, hm]
  · rw [ErrorCode.Wrap, Error_codeWrapf, hm]

theorem DisplayMessage_Wrapf {α : Type} (pr : Printer α) (callers : Trace) (err : GoError)
    (msg : String) (args : List α) :
    DisplayMessage (Wrapf pr callers err msg args) = Code err := by
  cases err <;> rfl

theorem DisplayMessage_applyOps_freeWrap {α : Type} (pr : Printer α)
    (ops : List (WrapOp α)) :
    ∀ err : GoError, ops ≠ [] → ops.all WrapOp.isFreeWrap = true →
      DisplayMessage (applyOps pr ops err) = Code err := by
  induction ops with
  | nil => intro err h; exact absurd rfl h
  | cons op ops ih =>
    intro err _ h
    rw [List.all_cons, Bool.and_eq_true] at h
    have hop : DisplayMessage (op.apply pr err) = Code err ∧ Code (op.apply pr err) = Code err := by
      cases op with
      | wrap callers msg => exact ⟨DisplayMessage_Wrapf _ _ _ _ _, Code_Wrapf _ _ _ _ _⟩
      | wrapf callers msg args => exact ⟨DisplayMessage_Wrapf _ _ _ _ _, Code_Wrapf _ _ _ _ _⟩
      | withDisplayMessage msg => simp [WrapOp.isFreeWrap] at h
      | codeWrap code callers msg => simp [WrapOp.isFreeWrap] at h
      | codeWrapf code callers msg args => simp [WrapOp.isFreeWrap] at h
    rw [applyOps_cons]
    cases ops with
    | nil => exact hop.1
    | cons op2 ops => rw [ih _ (List.cons_ne_nil _ _) h.2, hop.2]

/-! ## Claims -/

/-- C1: for every category `C` and message `m`, `Code(C.New(m))` is `C` and
the description `C.New(m).Error()` is exactly `m`; the free `New(m)` has code
`InternalError` and description `m`. -/
theorem c1_new_code_and_description (C : ErrorCode) (callers : Trace) (m : String) :
    Code (ErrorCode.New C callers m) = C ∧
    Error (ErrorCode.New C callers m) = some m ∧
    Code (New callers m) = InternalError ∧
    Error (New callers m) = some m :=
  ⟨rfl, rfl, rfl, rfl⟩

/-- C2: `Code` is invariant under free wrapping.  For every error `err` (nil
or not) `Wrap`, `Wrapf` and `WithDisplayMessage` keep `Code(err)`; hence any
finite sequence of free wrapping calls applied to `C.New(m)` has code `C`, and
applied to an error that is not a library value it has code `InternalError`. -/
theorem c2_code_invariant_under_free_wrapping {α : Type} (pr : Printer α) :
    (∀ callers err m, Code (Wrap pr callers err m) = Code err) ∧
    (∀ callers err f args, Code (Wrapf pr callers err f args) = Code err) ∧
    (∀ err x, Code (WithDisplayMessage err x) = Code err) ∧
    (∀ (C : ErrorCode) callers m (ops : List (WrapOp α)), ops.all WrapOp.isFree = true →
      Code (applyOps pr ops (ErrorCode.New C callers m)) = C) ∧
    (∀ e (ops : List (WrapOp α)), isCustomError e = false → ops.all WrapOp.isFree = true →
      Code (applyOps pr ops e) = InternalError) := by
  refine ⟨fun callers err m => Code_Wrapf pr callers err m [],
    fun callers err f args => Code_Wrapf pr callers err f args,
    Code_WithDisplayMessage, ?_, ?_⟩
  · intro C callers m ops h
    rw [Code_applyOps_free pr ops _ h]
    rfl
  · intro e ops he h
    rw [Code_applyOps_free pr ops _ h, Code_of_not_customError e he]

/-- Witness of C2: three free wrapping calls on `NotFound.New`, and on the
foreign `io.EOF`. -/
theorem c2_code_invariant_under_free_wrapping_witness :
    Code (applyOps concatPrinter
      [.wrap [10, 11] "lookup failed", .withDisplayMessage "No such row",
       .wrapf [20] "in %s" ["handler"]]
      (ErrorCode.New NotFound [1, 2] "row missing")) = NotFound ∧
    Code (applyOps concatPrinter
      [.wrap [10, 11] "lookup failed", .withDisplayMessage "No such row",
       .wrapf [20] "in %s" ["handler"]]
      (.plain "EOF")) = InternalError :=
  ⟨(c2_code_invariant_under_free_wrapping concatPrinter).2.2.2.1 NotFound [1, 2]
      "row missing" _ (by decide),
   (c2_code_invariant_under_free_wrapping concatPrinter).2.2.2.2 (.plain "EOF") _
      (by decide) (by decide)⟩

/-- C3 (the code departs from the claim at a message with a `%`): `Wrap` and
the category-bound `Wrap` hand their message to `Wrapf` as a format, so for
`io.EOF` and the message `100%` the description is `100%!(NOVERB): EOF`, not
`100%: EOF`, and for the message `hi%d` it is `hi%!d(MISSING): EOF`. -/
theorem c3_wrap_formats_its_message {α : Type} (pr : Printer α) (callers : Trace)
    (C : ErrorCode) :
    Error (Wrap pr callers (.plain "EOF") "100%") = some "100%!(NOVERB): EOF" ∧
    Error (ErrorCode.Wrap pr C callers (.plain "EOF") "100%") = some "100%!(NOVERB): EOF" ∧
    "100%!(NOVERB): EOF" ≠ "100%" ++ ": " ++ "EOF" ∧
    Error (Wrap pr callers (.plain "EOF") "hi%d") = some "hi%!d(MISSING): EOF" ∧
    Error (ErrorCode.Wrap pr C callers (.plain "EOF") "hi%d") = some "hi%!d(MISSING): EOF" ∧
    "hi%!d(MISSING): EOF" ≠ "hi%d" ++ ": " ++ "EOF" :=
  ⟨rfl, rfl, by decide, rfl, rfl, by decide⟩

/-- C4: `Cause` recovers the root through repeated wrapping.  For every root
failure `e` and every sequence of library wraps (free or category-bound
`Wrap`/`Wrapf`, `WithDisplayMessage`, in any mix, of any length `n`, so for
every `n ≥ 1`), `Cause` of the wrapped value returns exactly `e`, with any
fuel from `n + 3` on. -/
theorem c4_cause_recovers_root {α : Type} (pr : Printer α) (e : GoError)
    (ops : List (WrapOp α)) (h : isRoot e = true) (fuel : Nat)
    (hf : ops.length + 3 ≤ fuel) :
    Cause fuel (applyOps pr ops e) = some e := by
  have hx : e ≠ .nil := by cases e <;> simp [isRoot] at h ⊢
  have hc : causerCause e = none := by cases e <;> first | rfl | simp [isRoot] at h
  exact Cause_applyOps pr e ops e 3 (Nat.le_refl 3) hx hc
    (fun g hg => Cause_root e h g (by omega)) fuel (by omega)

/-- Witness of C4: `io.EOF` under a free wrap, a display message, a
category-bound wrap and a free formatted wrap. -/
theorem c4_cause_recovers_root_witness :
    Cause 7 (applyOps concatPrinter
      [.wrap [10, 11] "some other message", .withDisplayMessage "We had a problem",
       .codeWrap NotFound [20] "last error", .wrapf [30] "in %s" ["handler"]]
      (.plain "EOF")) = some (.plain "EOF") :=
  c4_cause_recovers_root concatPrinter (.plain "EOF") _ (by decide) 7 (by decide)

/-- C5 (the code departs from the claim under a foreign wrap): for the
library value `NotFound.New("row missing")` wrapped by the `Wrapf` of
pkg/errors, `Cause` returns the library value itself, which is not a root,
whatever the fuel from 4 on. -/
theorem c5_cause_stops_at_library_value {α : Type} (pr : Printer α) (k : Nat) :
    Cause (k + 4)
      (pkgWrapf pr [20] (ErrorCode.New NotFound [1] "row missing") "lookup failed" [])
      = some (ErrorCode.New NotFound [1] "row missing") ∧
    isCustomError (ErrorCode.New NotFound [1] "row missing") = true ∧
    isRoot (ErrorCode.New NotFound [1] "row missing") = false := by
  refine ⟨?_, rfl, rfl⟩
  simp [Cause, pkgWrapf, ErrorCode.New, pkgNew, pkgCause, causerCause]

/-- C6, refuted as stated: a display message attached to `New("db down")` is
not what `DisplayMessage` returns after a further `Wrap`; the label of the
category is returned. -/
theorem c6_display_message_lost_by_wrap :
    "We had a problem" ≠ "" ∧
    DisplayMessage (Wrap concatPrinter [20]
      (WithDisplayMessage (New [1] "db down") "We had a problem") "lookup failed")
      = "Internal Error" ∧
    DisplayMessage (Wrap concatPrinter [20]
      (WithDisplayMessage (New [1] "db down") "We had a problem") "lookup failed")
      ≠ "We had a problem" := by
  decide

/-- C6, amended: further free wrapping does not carry an attached display
message outward.  For every error `err`, display message `x` and message `m`,
`DisplayMessage(Wrap(WithDisplayMessage(err, x), m))` is the label of
`Code(err)`; likewise through `Wrapf` and through any non-empty sequence of
free `Wrap`/`Wrapf` calls.  The wrapped value itself keeps `x` when `x` is not
empty. -/
theorem c6_display_message_after_wrap {α : Type} (pr : Printer α) (err : GoError)
    (x : String) :
    (∀ callers m, DisplayMessage (Wrap pr callers (WithDisplayMessage err x) m) = Code err) ∧
    (∀ callers f args,
      DisplayMessage (Wrapf pr callers (WithDisplayMessage err x) f args) = Code err) ∧
    (∀ ops : List (WrapOp α), ops ≠ [] → ops.all WrapOp.isFreeWrap = true →
      DisplayMessage (applyOps pr ops (WithDisplayMessage err x)) = Code err) ∧
    (x ≠ "" → DisplayMessage (WithDisplayMessage err x) = x) := by
  refine ⟨fun callers m => ?_, fun callers f args => ?_, fun ops h1 h2 => ?_, fun hx => ?_⟩
  · rw [Wrap, DisplayMessage_Wrapf, Code_WithDisplayMessage]
  · rw [DisplayMessage_Wrapf, Code_WithDisplayMessage]
  · rw [DisplayMessage_applyOps_freeWrap pr ops _ h1 h2, Code_WithDisplayMessage]
  · rw [WithDisplayMessage_eq]
    simp [DisplayMessage, hx]

/-- Witness of C6 as amended: two free wraps over a display message attached
to `NotFound.New`. -/
theorem c6_display_message_after_wrap_witness :
    DisplayMessage (applyOps concatPrinter
      [.wrap [20] "lookup failed", .wrapf [30] "in %s" ["handler"]]
      (WithDisplayMessage (ErrorCode.New NotFound [1] "row missing") "No such row"))
      = NotFound ∧
    DisplayMessage (WithDisplayMessage (ErrorCode.New NotFound [1] "row missing") "No such row")
      = "No such row" :=
  ⟨(c6_display_message_after_wrap concatPrinter
      (ErrorCode.New NotFound [1] "row missing") "No such row").2.2.1 _
      (List.cons_ne_nil _ _) (by decide),
   (c6_display_message_after_wrap concatPrinter
      (ErrorCode.New NotFound [1] "row missing") "No such row").2.2.2 (by decide)⟩

/-- C7 (the code departs from the claim): `Code` looks at the outermost value
only.  For `InvalidArgument.New("invalid argument")` beneath the wrapping
layers of pkg/errors, `Code` returns `InternalError`, though the value beneath
has code `InvalidArgument`. -/
theorem c7_code_ignores_wrapped_library_value {α : Type} (pr : Printer α) :
    Code (pkgWrapf pr [20] (ErrorCode.New InvalidArgument [1] "invalid argument") "test" [])
      = InternalError ∧
    Code (.withMessage (ErrorCode.New InvalidArgument [1] "invalid argument") "test")
      = InternalError ∧
    Code (ErrorCode.New InvalidArgument [1] "invalid argument") = InvalidArgument ∧
    InvalidArgument ≠ InternalError :=
  ⟨rfl, rfl, rfl, by decide⟩

/-- C8: `DisplayMessage` resolution.  A library value with a non-empty display
message yields that message; a library value with an empty display message
yields the label of its category (the text of its code); a value that is not
a library value yields `Internal Error`.  In particular `C.New(m)` yields the
label of `C`, which is `Not Found` for `NotFound`. -/
theorem c8_display_message_resolution :
    (∀ (code : ErrorCode) (originalError : GoError) (d : String), d ≠ "" →
      DisplayMessage (.customError code originalError d) = d) ∧
    (∀ (code : ErrorCode) (originalError : GoError),
      DisplayMessage (.customError code originalError "") = code) ∧
    (∀ err : GoError, isCustomError err = false → DisplayMessage err = "Internal Error") ∧
    (∀ (C : ErrorCode) (callers : Trace) (m : String),
      DisplayMessage (ErrorCode.New C callers m) = C) ∧
    (∀ (callers : Trace) (m : String),
      DisplayMessage (ErrorCode.New NotFound callers m) = "Not Found") := by
  refine ⟨fun code o d hd => ?_, fun code o => rfl, fun err h => ?_, fun C callers m => rfl,
    fun callers m => rfl⟩
  · simp [DisplayMessage, hd]
  · cases err <;> first | rfl | simp [isCustomError] at h

/-- Witness of C8: a library value with a display message, and `io.EOF`. -/
theorem c8_display_message_resolution_witness :
    DisplayMessage (.customError NotFound (.plain "row missing") "No such row")
      = "No such row" ∧
    DisplayMessage (.plain "EOF") = "Internal Error" :=
  ⟨c8_display_message_resolution.1 NotFound (.plain "row missing") "No such row" (by decide),
   c8_display_message_resolution.2.2.1 (.plain "EOF") (by decide)⟩

/-- C9: `WithDisplayMessage` overrides the display text.  For every error
`err` (a library value of any category, with or without an earlier display
message, a foreign error, or nil) and every non-empty `x`,
`DisplayMessage(WithDisplayMessage(err, x))` is `x`. -/
theorem c9_with_display_message_overrides (err : GoError) (x : String) (hx : x ≠ "") :
    DisplayMessage (WithDisplayMessage err x) = x := by
  rw [WithDisplayMessage_eq]
  simp [DisplayMessage, hx]

/-- Witness of C9: a new display message over an earlier one. -/
theorem c9_with_display_message_overrides_witness :
    DisplayMessage (WithDisplayMessage
      (WithDisplayMessage (ErrorCode.New NotFound [1] "row missing") "No such row")
      "The record was not found") = "The record was not found" :=
  c9_with_display_message_overrides _ "The record was not found" (by decide)

/-- C10: a category-bound wrap overrides the category.  For every category
`C`, every error `err` (whatever category it carries, foreign, or nil) and
every message, `Code(C.Wrap(err, m))` and `Code(C.Wrapf(err, f, args...))`
are `C`. -/
theorem c10_category_bound_wrap_sets_code {α : Type} (pr : Printer α) (C : ErrorCode)
    (callers : Trace) (err : GoError) (m f : String) (args : List α) :
    Code (ErrorCode.Wrap pr C callers err m) = C ∧
    Code (ErrorCode.Wrapf pr C callers err f args) = C :=
  ⟨rfl, rfl⟩

/-! ## Termination, stack traces and nil: supporting facts -/

theorem pkgCauseSteps_fst (fuel : Nat) :
    ∀ err : GoError, (pkgCauseSteps fuel err).map Prod.fst = pkgCause fuel err := by
  induction fuel with
  | zero => intro err; rfl
  | succ fuel ih =>
    intro err
    by_cases hn : err = .nil
    · simp [pkgCauseSteps, pkgCause, hn]
    · cases hc : causerCause err with
      | none => simp [pkgCauseSteps, pkgCause, hn, hc]
      | some cause =>
        simp only [pkgCauseSteps, pkgCause, hn, hc, if_false]
        rw [← ih cause]
        cases pkgCauseSteps fuel cause <;> rfl

theorem CauseSteps_fst (fuel : Nat) :
    ∀ err : GoError, (CauseSteps fuel err).map Prod.fst = Cause fuel err := by
  induction fuel with
  | zero => intro err; rfl
  | succ fuel ih =>
    intro err
    cases err with
    | customError code originalError displayMessage =>
      simp only [CauseSteps, Cause]
      rw [← pkgCauseSteps_fst fuel originalError]
      cases pkgCauseSteps fuel originalError with
      | none => rfl
      | some p =>
        obtain ⟨root, n⟩ := p
        simp only [Option.map_some']
        rw [← ih root]
        cases CauseSteps fuel root <;> rfl
    | nil => exact pkgCauseSteps_fst fuel _
    | plain msg => exact pkgCauseSteps_fst fuel _
    | fundamental msg stack => exact pkgCauseSteps_fst fuel _
    | withMessage cause msg => exact pkgCauseSteps_fst fuel _
    | withStack err stack => exact pkgCauseSteps_fst fuel _
    | selfCauser msg => exact pkgCauseSteps_fst fuel _

theorem pkgCauseSteps_finite (err : GoError) :
    finiteChain err = true → ∀ fuel, depth err + 1 ≤ fuel →
      ∃ root n, pkgCauseSteps fuel err = some (root, n) ∧ n + depth root = depth err ∧
        finiteChain root = true := by
  induction err with
  | nil => intro _ fuel hf; obtain ⟨g, rfl⟩ : ∃ g, fuel = g + 1 := ⟨fuel - 1, by omega⟩
           exact ⟨.nil, 0, rfl, rfl, rfl⟩
  | plain msg => intro _ fuel hf; obtain ⟨g, rfl⟩ : ∃ g, fuel = g + 1 := ⟨fuel - 1, by omega⟩
                 exact ⟨_, 0, rfl, rfl, rfl⟩
  | fundamental msg stack =>
    intro _ fuel hf; obtain ⟨g, rfl⟩ : ∃ g, fuel = g + 1 := ⟨fuel - 1, by omega⟩
    exact ⟨_, 0, rfl, rfl, rfl⟩
  | selfCauser msg => intro h; simp [finiteChain] at h
  | customError code originalError displayMessage _ =>
    intro h fuel hf; obtain ⟨g, rfl⟩ : ∃ g, fuel = g + 1 := ⟨fuel - 1, by omega⟩
    exact ⟨_, 0, rfl, by simp, h⟩
  | withMessage cause msg ih =>
    intro h fuel hf
    obtain ⟨g, rfl⟩ : ∃ g, fuel = g + 1 := ⟨fuel - 1, by omega⟩
    simp only [depth] at hf
    obtain ⟨root, n, h1, h2, h3⟩ := ih (by simpa [finiteChain] using h) g (by omega)
    refine ⟨root, n + 1, ?_, by simp only [depth]; omega, h3⟩
    simp [pkgCauseSteps, causerCause, h1]
  | withStack err stack ih =>
    intro h fuel hf
    obtain ⟨g, rfl⟩ : ∃ g, fuel = g + 1 := ⟨fuel - 1, by omega⟩
    simp only [depth] at hf
    obtain ⟨root, n, h1, h2, h3⟩ := ih (by simpa [finiteChain] using h) g (by omega)
    refine ⟨root, n + 1, ?_, by simp only [depth]; omega, h3⟩
    simp [pkgCauseSteps, causerCause, h1]

theorem CauseSteps_finite (fuel : Nat) :
    ∀ err : GoError, finiteChain err = true → depth err + 2 ≤ fuel →
      ∃ root n, CauseSteps fuel err = some (root, n) ∧ n ≤ depth err := by
  induction fuel with
  | zero => intro err _ hf; omega
  | succ fuel ih =>
    intro err h hf
    have foreign : ∀ e : GoError, finiteChain e = true → depth e + 2 ≤ fuel + 1 →
        ∃ root n, pkgCauseSteps fuel e = some (root, n) ∧ n ≤ depth e := by
      intro e he hd
      obtain ⟨root, n, h1, h2, _⟩ := pkgCauseSteps_finite e he fuel (by omega)
      exact ⟨root, n, h1, by omega⟩
    cases err with
    | customError code originalError displayMessage =>
      simp only [depth] at hf
      obtain ⟨root, n, h1, h2, h3⟩ :=
        pkgCauseSteps_finite originalError (by simpa [finiteChain] using h) fuel (by omega)
      obtain ⟨last, k, h4, h5⟩ := ih root h3 (by omega)
      refine ⟨last, n + k + 1, ?_, by simp only [depth]; omega⟩
      simp [CauseSteps, h1, h4]
    | nil => exact foreign _ h hf
    | plain msg => exact foreign _ h hf
    | fundamental msg stack => exact foreign _ h hf
    | withMessage cause msg => exact foreign _ h hf
    | withStack err stack => exact foreign _ h hf
    | selfCauser msg => exact foreign _ h hf

theorem pkgCause_selfCauser (msg : String) : ∀ fuel, pkgCause fuel (.selfCauser msg) = none := by
  intro fuel
  induction fuel with
  | zero => rfl
  | succ fuel ih => simpa [pkgCause, causerCause] using ih

theorem Cause_selfCauser (msg : String) : ∀ fuel, Cause fuel (.selfCauser msg) = none := by
  intro fuel
  cases fuel with
  | zero => rfl
  | succ fuel => exact pkgCause_selfCauser msg fuel

theorem pkgCause_wrapped_cases (fuel : Nat) (x : GoError) (msg : String) (callers : Trace) :
    pkgCause fuel (.withStack (.withMessage x msg) callers) = none ∨
    ∃ g, pkgCause fuel (.withStack (.withMessage x msg) callers) = pkgCause g x := by
  cases fuel with
  | zero => exact Or.inl rfl
  | succ fuel =>
    cases fuel with
    | zero => exact Or.inl (by simp [pkgCause, causerCause])
    | succ fuel => exact Or.inr ⟨fuel, pkgCause_wrapped fuel x msg callers⟩

/-- If `Cause` never returns on `x`, and `pkgCause` either stops at `x` or
never returns on it, then `Cause` never returns on a library wrap of `x`. -/
theorem Cause_apply_none {α : Type} (pr : Printer α) (op : WrapOp α) (x : GoError)
    (hx : x ≠ .nil) (hp : ∀ fuel, pkgCause fuel x = none ∨ pkgCause fuel x = some x)
    (h : ∀ fuel, Cause fuel x = none) :
    ∀ fuel, Cause fuel (op.apply pr x) = none := by
  have direct : ∀ (code : ErrorCode) (d : String) (fuel : Nat),
      Cause fuel (.customError code x d) = none := by
    intro code d fuel
    cases fuel with
    | zero => rfl
    | succ fuel =>
      simp only [Cause]
      rcases hp fuel with h1 | h1 <;> rw [h1]
      exact h fuel
  have key : ∀ (code : ErrorCode) (msg : String) (callers : Trace) (d : String) (fuel : Nat),
      Cause fuel (.customError code (.withStack (.withMessage x msg) callers) d) = none := by
    intro code msg callers d fuel
    cases fuel with
    | zero => rfl
    | succ fuel =>
      simp only [Cause]
      rcases pkgCause_wrapped_cases fuel x msg callers with h1 | ⟨g, h1⟩
      · rw [h1]
      · rw [h1]
        rcases hp g with h2 | h2 <;> rw [h2]
        exact h fuel
  intro fuel
  cases op with
  | wrap callers msg =>
    simp only [WrapOp.apply, Wrap]; rw [Wrapf_of_ne_nil _ _ _ _ _ hx]; exact key _ _ _ _ _
  | wrapf callers msg args =>
    simp only [WrapOp.apply]; rw [Wrapf_of_ne_nil _ _ _ _ _ hx]; exact key _ _ _ _ _
  | withDisplayMessage msg =>
    simp only [WrapOp.apply]; rw [WithDisplayMessage_eq]; exact direct _ _ _
  | codeWrap code callers msg =>
    simp only [WrapOp.apply, ErrorCode.Wrap, ErrorCode.Wrapf]
    rw [pkgWrapf_of_ne_nil _ _ _ _ _ hx]; exact key _ _ _ _ _
  | codeWrapf code callers msg args =>
    simp only [WrapOp.apply, ErrorCode.Wrapf]
    rw [pkgWrapf_of_ne_nil _ _ _ _ _ hx]; exact key _ _ _ _ _

theorem pkgCause_apply_cases {α : Type} (pr : Printer α) (op : WrapOp α) (x : GoError) :
    ∀ fuel, pkgCause fuel (op.apply pr x) = none ∨
      pkgCause fuel (op.apply pr x) = some (op.apply pr x) := by
  intro fuel
  cases fuel with
  | zero => exact Or.inl rfl
  | succ fuel => exact Or.inr (pkgCause_stop fuel _ (apply_stops pr op x).1 (apply_stops pr op x).2)

theorem Cause_applyOps_none {α : Type} (pr : Printer α) (ops : List (WrapOp α)) :
    ∀ x : GoError, x ≠ .nil →
      (∀ fuel, pkgCause fuel x = none ∨ pkgCause fuel x = some x) →
      (∀ fuel, Cause fuel x = none) →
      ∀ fuel, Cause fuel (applyOps pr ops x) = none := by
  induction ops with
  | nil => intro x _ _ h fuel; exact h fuel
  | cons op ops ih =>
    intro x hx hp h fuel
    rw [applyOps_cons]
    exact ih (op.apply pr x) (apply_stops pr op x).1 (pkgCause_apply_cases pr op x)
      (Cause_apply_none pr op x hx hp h) fuel

theorem StackTrace_firstForeign (err : GoError) :
    StackTrace err = StackTrace (firstForeign err) := by
  induction err with
  | customError code originalError displayMessage ih => simpa [StackTrace, firstForeign] using ih
  | nil => rfl
  | plain msg => rfl
  | fundamental msg stack => rfl
  | withMessage cause msg _ => rfl
  | withStack err stack _ => rfl
  | selfCauser msg => rfl

theorem isCustomError_firstForeign (err : GoError) :
    isCustomError (firstForeign err) = false := by
  induction err with
  | customError code originalError displayMessage ih => simpa [firstForeign] using ih
  | nil => rfl
  | plain msg => rfl
  | fundamental msg stack => rfl
  | withMessage cause msg _ => rfl
  | withStack err stack _ => rfl
  | selfCauser msg => rfl

theorem StackTrace_foreign (f : GoError) (h : isCustomError f = false) :
    StackTrace f =
      match stackTracer f with
      | none => none
      | some [] => none
      | some (_ :: frames) => some frames := by
  cases f <;> first | rfl | simp [isCustomError] at h

/-! ## Claims on constructors, termination, stack traces and nil -/

theorem Error_isSome_Wrapf {α : Type} (pr : Printer α) (callers : Trace) (err : GoError)
    (msg : String) (args : List α) :
    (Error (Wrapf pr callers err msg args)).isSome = (Error err).isSome := by
  rw [Error_Wrapf]
  cases Error err <;> rfl

theorem originalErrorOf_Wrapf {α : Type} (pr : Printer α) (callers : Trace) (err : GoError)
    (msg : String) (args : List α) (h : err ≠ .nil) :
    ∃ o, originalErrorOf (Wrapf pr callers err msg args) = some o ∧ o ≠ .nil := by
  rw [Wrapf_of_ne_nil pr callers err msg args h]
  exact ⟨_, rfl, by simp⟩

/-- C11 (the code departs from the claim at `C.Newf`): with a captured stack
`frame :: frames`, `StackTrace` returns `frames` on `New(m)`, on
`Newf(f, args...)` and on `C.New(m)`; on `C.Newf(f, args...)` it fails for
every category, format and operands, since the cause made by `fmt.Errorf` has
no `StackTrace` method. -/
theorem c11_stack_trace_of_constructors {α : Type} (pr pe : Printer α) (C : ErrorCode)
    (frame : Frame) (frames : Trace) (m f : String) (args : List α) :
    StackTrace (New (frame :: frames) m) = some frames ∧
    StackTrace (Newf pr (frame :: frames) f args) = some frames ∧
    StackTrace (ErrorCode.New C (frame :: frames) m) = some frames ∧
    StackTrace (ErrorCode.Newf pe C f args) = none :=
  ⟨rfl, rfl, rfl, rfl⟩

/-- C12 (the code departs from the claim): `StackTrace` fails on a foreign
error that has no `StackTrace` method, such as `io.EOF`, any other plain
error, and a `withMessage` layer of pkg/errors. -/
theorem c12_stack_trace_of_foreign_error_fails :
    StackTrace (.plain "EOF") = none ∧
    (∀ msg : String, StackTrace (.plain msg) = none) ∧
    (∀ (cause : GoError) (msg : String), StackTrace (.withMessage cause msg) = none) :=
  ⟨rfl, fun _ => rfl, fun _ _ => rfl⟩

/-- C13 (the code departs from the claim at `Newf`): `New(m)` is the same
value as `InternalError.New(m)`, so the two agree on every observation.
`Newf(f, args...)` and `InternalError.Newf(f, args...)` agree on `Code` and on
`DisplayMessage`, and their descriptions are the texts formatted by
`fmt.Sprintf` and by `fmt.Errorf`; but `StackTrace` succeeds on the first and
fails on the second. -/
theorem c13_free_and_bound_constructors {α : Type} (pr pe : Printer α) (frame : Frame)
    (frames : Trace) (m f : String) (args : List α) :
    New (frame :: frames) m = ErrorCode.New InternalError (frame :: frames) m ∧
    Code (Newf pr (frame :: frames) f args) = Code (ErrorCode.Newf pe InternalError f args) ∧
    DisplayMessage (Newf pr (frame :: frames) f args)
      = DisplayMessage (ErrorCode.Newf pe InternalError f args) ∧
    Error (Newf pr (frame :: frames) f args) = some (Sprintf pr f args) ∧
    Error (ErrorCode.Newf pe InternalError f args) = some (Sprintf pe f args) ∧
    StackTrace (Newf pr (frame :: frames) f args) = some frames ∧
    StackTrace (ErrorCode.Newf pe InternalError f args) = none :=
  ⟨rfl, rfl, rfl, rfl, rfl, rfl, rfl⟩

/-- C14: `Cause` terminates.  For every error whose cause chain is finite, of
depth `d` (library values and wrapping layers in any interleaving), `Cause`
returns a result with any fuel from `d + 2` on, and reaches it after at most
`d` unwrapping steps. -/
theorem c14_cause_terminates (err : GoError) (h : finiteChain err = true) (fuel : Nat)
    (hf : depth err + 2 ≤ fuel) :
    ∃ root n, Cause fuel err = some root ∧ CauseSteps fuel err = some (root, n) ∧
      n ≤ depth err := by
  obtain ⟨root, n, h1, h2⟩ := CauseSteps_finite fuel err h hf
  refine ⟨root, n, ?_, h1, h2⟩
  rw [← CauseSteps_fst, h1]
  rfl

/-- Witness of C14: a library value over a pkg/errors wrap of a library value
made of `io.EOF`, a chain of depth 4. -/
theorem c14_cause_terminates_witness :
    ∃ root n,
      Cause 6 (.customError NotFound (.withStack (.withMessage
        (.customError InternalError (.plain "EOF") "") "lookup failed") [20]) "") = some root ∧
      CauseSteps 6 (.customError NotFound (.withStack (.withMessage
        (.customError InternalError (.plain "EOF") "") "lookup failed") [20]) "")
        = some (root, n) ∧
      n ≤ depth (.customError NotFound (.withStack (.withMessage
        (.customError InternalError (.plain "EOF") "") "lookup failed") [20]) "") :=
  c14_cause_terminates _ (by decide) 6 (by decide)

/-- C15, refuted as stated: on a layer that is its own cause, no amount of
fuel makes `Cause` return that layer. -/
theorem c15_cause_loops_on_self_cause :
    ¬ ∃ fuel, Cause fuel (.selfCauser "loop") = some (.selfCauser "loop") := by
  rintro ⟨fuel, h⟩
  rw [Cause_selfCauser] at h
  exact Option.noConfusion h

/-- C15, amended: `Cause` does not return on a self-cause.  For every foreign
layer `w` that reports itself as its own cause, `Cause(w)` and `Cause` of any
sequence of library wraps of `w` run out of every amount of fuel: the loop of
`errors.Cause` keeps following the `Cause` method of `w`. -/
theorem c15_cause_never_returns_on_self_cause {α : Type} (pr : Printer α)
    (ops : List (WrapOp α)) (msg : String) (fuel : Nat) :
    Cause fuel (applyOps pr ops (.selfCauser msg)) = none :=
  Cause_applyOps_none pr ops (.selfCauser msg) (by simp)
    (fun g => Or.inl (pkgCause_selfCauser msg g)) (Cause_selfCauser msg) fuel

/-- C16: the result of `StackTrace` and when it fails.  With `f` the first
error that is not a library value, reached from `err` through `originalError`,
`StackTrace(err)` fails exactly when `f` has no `StackTrace` method or its
trace is empty; otherwise it is the trace of `f` without its first frame, one
frame shorter; and it is the same for `err`, for `f` and for a library layer
put on top of `err`. -/
theorem c16_stack_trace_result (err : GoError) :
    isCustomError (firstForeign err) = false ∧
    (StackTrace err = none ↔
      (stackTracer (firstForeign err) = none ∨ stackTracer (firstForeign err) = some [])) ∧
    (∀ t : Trace, stackTracer (firstForeign err) = some t → t ≠ [] →
      StackTrace err = some (t.drop 1) ∧ (t.drop 1).length + 1 = t.length) ∧
    StackTrace err = StackTrace (firstForeign err) ∧
    (∀ (code : ErrorCode) (d : String), StackTrace (.customError code err d) = StackTrace err) := by
  have hf := isCustomError_firstForeign err
  have hs := StackTrace_foreign (firstForeign err) hf
  refine ⟨hf, ?_, ?_, StackTrace_firstForeign err, fun _ _ => rfl⟩
  · rw [StackTrace_firstForeign err, hs]
    cases stackTracer (firstForeign err) with
    | none => simp
    | some t => cases t <;> simp
  · intro t ht hne
    rw [StackTrace_firstForeign err, hs, ht]
    cases t with
    | nil => exact absurd rfl hne
    | cons frame frames => simp

/-- Witness of C16: two library layers over a `fundamental` error with three
frames, and over `io.EOF`. -/
theorem c16_stack_trace_result_witness :
    StackTrace (.customError NotFound
        (.customError InternalError (.fundamental "row missing" [1, 2, 3]) "") "No such row")
      = some [2, 3] ∧
    StackTrace (.customError NotFound (.customError InternalError (.plain "EOF") "") "") = none :=
  ⟨((c16_stack_trace_result (.customError NotFound
        (.customError InternalError (.fundamental "row missing" [1, 2, 3]) "") "No such row")).2.2.1
      [1, 2, 3] rfl (by decide)).1,
   (c16_stack_trace_result
      (.customError NotFound (.customError InternalError (.plain "EOF") "") "")).2.1.mpr
      (Or.inl rfl)⟩

/-- C17: `WithDisplayMessage` leaves the description untouched.  For every
error `err` (nil included, where both descriptions fail) and every `x`, the
description of `WithDisplayMessage(err, x)` is that of `err`, and its
`originalError` is `err` itself. -/
theorem c17_with_display_message_keeps_description (err : GoError) (x : String) :
    Error (WithDisplayMessage err x) = Error err ∧
    originalErrorOf (WithDisplayMessage err x) = some err := by
  rw [WithDisplayMessage_eq]
  exact ⟨rfl, rfl⟩

/-- C18, refuted as stated: `Wrap(nil, "a")` is a non-nil error, and the
description of a further `Wrap` of it, and of `WithDisplayMessage` of it,
fails. -/
theorem c18_error_fails_on_wrapped_nil_wrap :
    Wrap concatPrinter [1] .nil "a" ≠ .nil ∧
    Error (Wrap concatPrinter [2] (Wrap concatPrinter [1] .nil "a") "b") = none ∧
    Error (WithDisplayMessage (Wrap concatPrinter [1] .nil "a") "x") = none := by
  decide

/-- C18, amended: wrapping nil does not yield nil.  `Wrap(nil, m)` and
`Wrapf(nil, f, args...)` are a non-nil library value with code
`InternalError` whose `originalError` is nil, and its description fails.  For
every non-nil `err`, the value returned by `Wrap`, `Wrapf` and
`WithDisplayMessage` has a non-nil `originalError`, and its description is
defined exactly when the description of `err` is. -/
theorem c18_wrapping_nil {α : Type} (pr : Printer α) (callers : Trace) (m f : String)
    (args : List α) :
    (Wrap pr callers .nil m ≠ .nil ∧ Code (Wrap pr callers .nil m) = InternalError ∧
      originalErrorOf (Wrap pr callers .nil m) = some .nil ∧
      Error (Wrap pr callers .nil m) = none) ∧
    (Wrapf pr callers .nil f args ≠ .nil ∧ Code (Wrapf pr callers .nil f args) = InternalError ∧
      originalErrorOf (Wrapf pr callers .nil f args) = some .nil ∧
      Error (Wrapf pr callers .nil f args) = none) ∧
    (∀ err : GoError, err ≠ .nil →
      (∃ o, originalErrorOf (Wrap pr callers err m) = some o ∧ o ≠ .nil) ∧
      (Error (Wrap pr callers err m)).isSome = (Error err).isSome ∧
      (∃ o, originalErrorOf (Wrapf pr callers err f args) = some o ∧ o ≠ .nil) ∧
      (Error (Wrapf pr callers err f args)).isSome = (Error err).isSome) ∧
    (∀ (err : GoError) (x : String), err ≠ .nil →
      (∃ o, originalErrorOf (WithDisplayMessage err x) = some o ∧ o ≠ .nil) ∧
      (Error (WithDisplayMessage err x)).isSome = (Error err).isSome) := by
  refine ⟨⟨by simp [Wrap, Wrapf], rfl, rfl, rfl⟩, ⟨by simp [Wrapf], rfl, rfl, rfl⟩, ?_, ?_⟩
  · intro err h
    exact ⟨originalErrorOf_Wrapf pr callers err m [] h, Error_isSome_Wrapf pr callers err m [],
      originalErrorOf_Wrapf pr callers err f args h, Error_isSome_Wrapf pr callers err f args⟩
  · intro err x h
    rw [WithDisplayMessage_eq]
    exact ⟨⟨err, rfl, h⟩, rfl⟩

/-- Witness of C18 as amended: `Wrap` and `WithDisplayMessage` of `io.EOF`. -/
theorem c18_wrapping_nil_witness :
    (Error (Wrap concatPrinter [1] (.plain "EOF") "some other message")).isSome
      = (Error (.plain "EOF")).isSome ∧
    (Error (WithDisplayMessage (.plain "EOF") "We had a problem")).isSome
      = (Error (.plain "EOF")).isSome :=
  ⟨((c18_wrapping_nil concatPrinter [1] "some other message" "in %s" ["handler"]).2.2.1
      (.plain "EOF") (by decide)).2.1,
   ((c18_wrapping_nil concatPrinter [1] "some other message" "in %s" ["handler"]).2.2.2
      (.plain "EOF") "We had a problem" (by decide)).2⟩

end GoErrors
